import Mathlib

/-!
Verification development for the art-viewer repository
(`convert_to_dzi.py`, `serve.py`, `thumb_utils.py`).

The Python sources are shallowly embedded: pure string manipulation is
translated to functions on `List Char` / `String`, filesystem-touching
code is translated to explicit state passing over an association-list
filesystem, and the external `vips`/`pyvips` tiling and resizing
capability is abstracted by a behaviour record describing what the
external tool did (whether it raised, which artifacts it produced).
Character classes of Python's regexes (`\w`, `\s`) and `str.lower` are
modelled on their ASCII fragment, with characters handled through their
code points.
-/

namespace ArtViewer

/-! ### 1. Character classes (Python's `\w`, `\s` on ASCII code points)

Python's `re` classes and `str.lower` are Unicode-aware; the predicates
below reproduce them exactly on the ASCII code points (0-127) and make
no claim beyond: the universal theorem about `slugify` is therefore
stated only for strings of ASCII characters, the domain on which this
embedding coincides with the program.  (On non-ASCII input the program
keeps Unicode word characters in the slug, which this model does not
track.) -/

/-- Code points among 0-127 matched by Python's `\w`:
digits `0-9`, letters `A-Z` and `a-z`, and the underscore. -/
def wordNat (n : Nat) : Bool :=
  (48 ≤ n && n ≤ 57) || (65 ≤ n && n ≤ 90) || (97 ≤ n && n ≤ 122) || n == 95

/-- Python regex `\w` on an ASCII character. -/
def isWordChar (c : Char) : Bool := wordNat c.toNat

/-- Python regex `\s` on an ASCII character: tab, newline, vertical tab,
form feed, carriage return, the separator control characters 28-31, and
space (the exact set of code points below 128 that Python `\s`
matches). -/
def isSpaceChar (c : Char) : Bool :=
  (9 ≤ c.toNat && c.toNat ≤ 13) || (28 ≤ c.toNat && c.toNat ≤ 31) || c.toNat == 32

/-- A character matched by the second regex class `[-\s]` of `slugify`. -/
def isDashOrSpace (c : Char) : Bool := c == '-' || isSpaceChar c

/-- Code-point form of ASCII `str.lower`. -/
def lowerNat (n : Nat) : Nat := if 65 ≤ n ∧ n ≤ 90 then n + 32 else n

/-- ASCII `str.lower` on one character. -/
def lowerChar (c : Char) : Char :=
  if 65 ≤ c.toNat ∧ c.toNat ≤ 90 then Char.ofNat (c.toNat + 32) else c

/-! ### 2. `slugify` (convert_to_dzi.py lines 21-26) -/

/-- The character class kept by `re.sub(r'[^\w\s-]', '', name)`. -/
def keepChar (c : Char) : Bool := isWordChar c || isSpaceChar c || c == '-'

/-- Python `re.sub(r'[-\s]+', '-', slug)`: every maximal run of characters in
`[-\s]` is replaced by a single hyphen.  The Boolean argument records
whether we are currently inside such a run (so the hyphen for it has
already been emitted). -/
def collapseRuns : Bool → List Char → List Char
  | _, [] => []
  | inRun, c :: rest =>
    if isDashOrSpace c then
      if inRun then collapseRuns true rest
      else '-' :: collapseRuns true rest
    else c :: collapseRuns false rest

/-- Python `str.strip('-')` on the right end only. -/
def stripTrailingDashes : List Char → List Char
  | [] => []
  | c :: rest =>
    match stripTrailingDashes rest with
    | [] => if c == '-' then [] else [c]
    | r => c :: r

/-- Python `str.strip('-')`: remove leading and trailing hyphens. -/
def stripDashes (l : List Char) : List Char :=
  stripTrailingDashes (l.dropWhile (fun c => c == '-'))

/-- Embeds `slugify` from convert_to_dzi.py, character-list form:
`slug = re.sub(r'[^\w\s-]', '', name)`;
`slug = re.sub(r'[-\s]+', '-', slug)`;
`return slug.lower().strip('-')`. -/
def slugifyChars (s : List Char) : List Char :=
  stripDashes ((collapseRuns false (s.filter keepChar)).map lowerChar)

/-- `slugify` on strings. -/
def slugify (s : String) : String := String.mk (slugifyChars s.toList)

/-- The fallback applied by `convert_to_dzi` (lines 53-56):
`clean_slug = slugify(original_name)`; `if not clean_slug: clean_slug = 'artwork'`. -/
def slugWithFallback (s : String) : String :=
  if slugify s = "" then "artwork" else slugify s

/-! ### 3. The slug patterns of the spec

`matchesGroups P true l` decides whether `l` matches `^[P]+(-[P]+)*$`
for a character class `P`: nonempty groups of `P`-characters separated
by single hyphens.  The Boolean state records whether the next character
must belong to `P` (start of the string or just after a separator). -/

def matchesGroups (P : Char → Bool) : Bool → List Char → Bool
  | needWord, [] => !needWord
  | needWord, c :: rest =>
    if P c then matchesGroups P false rest
    else if c == '-' && !needWord then matchesGroups P true rest
    else false

/-- The class `[a-z0-9]` of the claimed pattern. -/
def isLowerAlnum (c : Char) : Bool :=
  (48 ≤ c.toNat && c.toNat ≤ 57) || (97 ≤ c.toNat && c.toNat ≤ 122)

/-- The class `[a-z0-9_]`: lowercase word characters (ASCII). -/
def isLowerWord (c : Char) : Bool := isLowerAlnum c || c.toNat == 95

/-- The claimed pattern `^[a-z0-9]+(-[a-z0-9]+)*$`. -/
def matchesClaimPattern (s : String) : Bool := matchesGroups isLowerAlnum true s.toList

/-- The amended pattern `^[a-z0-9_]+(-[a-z0-9_]+)*$` (underscore added:
Python `\w` keeps it and nothing in `slugify` removes it). -/
def matchesAmendedPattern (s : String) : Bool := matchesGroups isLowerWord true s.toList

/-- No two adjacent hyphens (used to relate `slugify` to the patterns). -/
def noAdjDash : List Char → Bool
  | [] => true
  | [_] => true
  | a :: b :: rest => !(a == '-' && b == '-') && noAdjDash (b :: rest)

/-! ### 4. Filesystem model

Paths are the literal strings the Python code builds (no implicit
normalisation; `..` is resolved only by `normalizePath` below, the way
the operating system would on access).  A filesystem is an association
list from such strings to entries; the first binding wins, and the
update operations keep at most one binding per path.  Image files carry
the pixel dimensions and JPEG quality the external library would
observe/produce; `none` dimensions mean the file is not a loadable
image.  The external resize is modelled as exact scaling by a rational
factor `num/den`, floored to naturals. -/

structure Img where
  width : Nat
  height : Nat
  quality : Option Nat
deriving DecidableEq

inductive Entry
  | dir
  | file (img : Option Img)
deriving DecidableEq

structure FS where
  entries : List (String × Entry)
deriving DecidableEq

def lookupEntry : List (String × Entry) → String → Option Entry
  | [], _ => none
  | (q, e) :: rest, p => if q = p then some e else lookupEntry rest p

def FS.lookup (fs : FS) (p : String) : Option Entry := lookupEntry fs.entries p

/-- Python `Path.exists()`: an entry of any kind is present. -/
def FS.existsPath (fs : FS) (p : String) : Bool := (fs.lookup p).isSome

def FS.isFile (fs : FS) (p : String) : Bool :=
  match fs.lookup p with
  | some (.file _) => true
  | _ => false

def FS.isDir (fs : FS) (p : String) : Bool :=
  match fs.lookup p with
  | some .dir => true
  | _ => false

def FS.remove (fs : FS) (p : String) : FS :=
  ⟨fs.entries.filter (fun e => decide (e.1 ≠ p))⟩

def FS.insert (fs : FS) (p : String) (e : Entry) : FS :=
  ⟨(p, e) :: (fs.remove p).entries⟩

/-- Python `Path.mkdir(exist_ok=True)`: create the directory unless an entry
already exists there. -/
def FS.mkdirIfAbsent (fs : FS) (p : String) : FS :=
  if fs.existsPath p then fs else ⟨(p, .dir) :: fs.entries⟩

/-! ### 5. Path helpers (the fragments of `pathlib` the code uses) -/

def splitSlashAux (cur : List Char) : List Char → List (List Char)
  | [] => [cur.reverse]
  | c :: rest =>
    if c == '/' then cur.reverse :: splitSlashAux [] rest
    else splitSlashAux (c :: cur) rest

/-- Split on `'/'` into components (empty components preserved). -/
def splitSlash (s : String) : List String :=
  (splitSlashAux [] s.toList).map String.mk

/-- Python `Path.name`: the final slash-separated component. -/
def pathName (p : String) : String := ((splitSlash p).getLast?).getD ""

/-- Python `Path.stem` and `Path.suffix` for a final component, per `pathlib`:
with `i = name.rfind('.')`, the name splits at `i` iff `0 < i < len(name) - 1`. -/
def pyStemSuffix (name : String) : String × String :=
  let cs := name.toList
  match cs.reverse.findIdx? (fun c => c == '.') with
  | none => (name, "")
  | some k =>
    let i := cs.length - 1 - k
    if 0 < i ∧ i < cs.length - 1 then (String.mk (cs.take i), String.mk (cs.drop i))
    else (name, "")

def pathStem (p : String) : String := (pyStemSuffix (pathName p)).1

def pathSuffix (p : String) : String := (pyStemSuffix (pathName p)).2

/-- ASCII `str.lower` on a string. -/
def lowerStr (s : String) : String := String.mk (s.toList.map lowerChar)

/-- Resolve `.`/`..`/empty components the way the OS does when the path
is opened (absolute paths: `..` at the root stays at the root). -/
def normalizePath (comps : List String) : List String :=
  comps.foldl
    (fun acc c =>
      if c = "" ∨ c = "." then acc
      else if c = ".." then acc.dropLast
      else acc ++ [c])
    []

/-- Whether the normalised path `p` lies under the normalised root. -/
def isUnder (root p : List String) : Bool := root.isPrefixOf p

/-! ### 6. Metadata store (`.artworks.json`)

`RawStore` models the JSON file as the reader sees it: absent, present
but unparsable, or a parsed mapping (an insertion-ordered association
list, like a Python dict). -/

structure ArtworkRecord where
  original_name : String
  dzi_path : String
  dzi_file : String
deriving DecidableEq

inductive RawStore
  | missing
  | corrupt
  | valid (entries : List (String × ArtworkRecord))
deriving DecidableEq

/-- Loading, from `metadata = {}; if metadata_file.exists(): try: metadata = json.loads(...)
except: pass` — an absent or corrupt store reads as empty. -/
def loadMetadata : RawStore → List (String × ArtworkRecord)
  | .missing => []
  | .corrupt => []
  | .valid l => l

def lookupRecord : List (String × ArtworkRecord) → String → Option ArtworkRecord
  | [], _ => none
  | (k, v) :: rest, s => if k = s then some v else lookupRecord rest s

/-- Python dict assignment `metadata[slug] = ...`: overwrite in place or
append at the end. -/
def setRecord : List (String × ArtworkRecord) → String → ArtworkRecord →
    List (String × ArtworkRecord)
  | [], slug, r => [(slug, r)]
  | (k, v) :: rest, slug, r =>
    if k = slug then (k, r) :: rest else (k, v) :: setRecord rest slug r

/-- Embeds `save_artwork_metadata` (convert_to_dzi.py lines 137-155): load the
store (empty when absent/corrupt), upsert the slug's record, write the
whole mapping back. -/
def save_artwork_metadata (slug original_name dzi_file : String) (store : RawStore) :
    RawStore :=
  .valid (setRecord (loadMetadata store) slug
    ⟨original_name, slug ++ "/" ++ slug ++ ".dzi", dzi_file⟩)

/-! ### 7. DZI converter (`convert_to_dzi.py`)

The external tiling capability (pyvips `dzsave`, or the `vips` CLI) is
abstracted by `VipsBehavior`: whether the image loads, whether the
in-process save raises, the CLI exit status, and which artifacts the
tool actually produced (the tool may "succeed" yet omit outputs).  The
converter also records a trace of the filesystem operations it performs;
the vocabulary includes a `copyFile` effect so that staging claims can
be stated, although the code never performs a copy. -/

structure VipsBehavior where
  loadOk : Bool
  dzsaveOk : Bool
  cliExitZero : Bool
  makesDzi : Bool
  makesTiles : Bool
deriving DecidableEq

inductive Effect
  | checkExists (p : String)
  | mkdir (p : String)
  | copyFile (src dst : String)
  | tile (src outputBase : String)
  | writeMetadata (slug : String)
  | unlink (p : String)
deriving DecidableEq

def isCopyEffect : Effect → Bool
  | .copyFile _ _ => true
  | _ => false

def isTileEffect : Effect → Bool
  | .tile _ _ => true
  | _ => false

/-- Every `tile` effect in a trace reads directly from source path `p`. -/
def tileSrcIs (p : String) : Effect → Bool
  | .tile src _ => src == p
  | _ => true

/-- Embeds `convert_with_pyvips` (lines 95-123): load, `dzsave`, then verify
that `<slug>.dzi` and `<slug>_files` exist, raising a message naming
the missing artifact.  Returns the filesystem (with whatever outputs
the tool produced) and `some msg` when an exception was raised. -/
def convert_with_pyvips (b : VipsBehavior) (image_path dzi_dir slug : String)
    (fs : FS) : FS × Option String :=
  if !b.loadOk then (fs, some ("unable to load source image " ++ image_path))
  else if !b.dzsaveOk then (fs, some "dzsave failed")
  else
    let dzi_file := dzi_dir ++ "/" ++ slug ++ ".dzi"
    let tiles_dir := dzi_dir ++ "/" ++ slug ++ "_files"
    let fs1 := if b.makesDzi then fs.insert dzi_file (.file none) else fs
    let fs2 := if b.makesTiles then fs1.insert tiles_dir .dir else fs1
    if !fs2.existsPath dzi_file then (fs2, some ("DZI file not created: " ++ dzi_file))
    else if !fs2.existsPath tiles_dir then
      (fs2, some ("Tiles directory not created: " ++ tiles_dir))
    else (fs2, none)

/-- Embeds `convert_with_cli` (lines 126-134): `subprocess.run([...], check=True)`
raises exactly when the tool exits non-zero; no postcondition check. -/
def convert_with_cli (b : VipsBehavior) (image_path dzi_dir slug : String)
    (fs : FS) : FS × Option String :=
  let dzi_file := dzi_dir ++ "/" ++ slug ++ ".dzi"
  let tiles_dir := dzi_dir ++ "/" ++ slug ++ "_files"
  let fs1 := if b.makesDzi then fs.insert dzi_file (.file none) else fs
  let fs2 := if b.makesTiles then fs1.insert tiles_dir .dir else fs1
  if !b.cliExitZero then (fs2, some "vips CLI returned non-zero exit status")
  else (fs2, none)

structure ConvConfig where
  hasPyvips : Bool
  behavior : VipsBehavior
  scriptDir : String
  imagePath : String
  cleanup : Bool
deriving DecidableEq

structure ConvState where
  fs : FS
  meta : RawStore
deriving DecidableEq

inductive ConvExit
  | success
  | failure (msg : String)
deriving DecidableEq

structure ConvResult where
  exit : ConvExit
  state : ConvState
  trace : List Effect
deriving DecidableEq

/-- Embeds `convert_to_dzi` (lines 42-92).  `imagePath` is the already-resolved
source path; `scriptDir` is `Path(__file__).parent`. -/
def convert_to_dzi (cfg : ConvConfig) (st : ConvState) : ConvResult :=
  let t0 := [Effect.checkExists cfg.imagePath]
  if !st.fs.existsPath cfg.imagePath then
    { exit := .failure ("Error: File not found: " ++ cfg.imagePath),
      state := st, trace := t0 }
  else
    let original_name := pathStem cfg.imagePath
    let slug0 := slugify original_name
    let clean_slug := if slug0 = "" then "artwork" else slug0
    let dzi_dir := cfg.scriptDir ++ "/" ++ clean_slug
    let dzi_file := dzi_dir ++ "/" ++ clean_slug ++ ".dzi"
    let fs1 := st.fs.mkdirIfAbsent dzi_dir
    let t1 := t0 ++ [Effect.mkdir dzi_dir]
    let tiled :=
      if cfg.hasPyvips then
        convert_with_pyvips cfg.behavior cfg.imagePath dzi_dir clean_slug fs1
      else convert_with_cli cfg.behavior cfg.imagePath dzi_dir clean_slug fs1
    let t2 := t1 ++ [Effect.tile cfg.imagePath (dzi_dir ++ "/" ++ clean_slug)]
    match tiled.2 with
    | some e => { exit := .failure e, state := { st with fs := tiled.1 }, trace := t2 }
    | none =>
      let meta1 := save_artwork_metadata clean_slug original_name dzi_file st.meta
      let t3 := t2 ++ [Effect.writeMetadata clean_slug]
      let doCleanup := cfg.cleanup &&
        (lowerStr (pathSuffix cfg.imagePath) == ".jpg" ||
         lowerStr (pathSuffix cfg.imagePath) == ".jpeg" ||
         lowerStr (pathSuffix cfg.imagePath) == ".png")
      let fs3 := if doCleanup then tiled.1.remove cfg.imagePath else tiled.1
      let t4 := t3 ++ (if doCleanup then [Effect.unlink cfg.imagePath] else [])
      { exit := .success, state := { fs := fs3, meta := meta1 }, trace := t4 }

/-! ### 8. Thumbnail generator (`thumb_utils.py`) -/

structure ThumbConfig where
  hasPyvips : Bool
  /-- whether the external load/resize/encode step succeeds; any failure
  in the `try` block is swallowed. -/
  vipsOk : Bool
deriving DecidableEq

/-- The deterministic thumbnail path `<artworks_dir>/<slug>/.thumb-<size>.jpg`. -/
def thumbPathOf (artworks_dir slug : String) (size : Nat) : String :=
  artworks_dir ++ "/" ++ slug ++ "/.thumb-" ++ toString size ++ ".jpg"

def zoom0DirOf (artworks_dir slug : String) : String :=
  artworks_dir ++ "/" ++ slug ++ "/" ++ slug ++ "_files/0"

def zoom0JpgOf (artworks_dir slug : String) : String :=
  zoom0DirOf artworks_dir slug ++ "/0_0.jpg"

def zoom0JpegOf (artworks_dir slug : String) : String :=
  zoom0DirOf artworks_dir slug ++ "/0_0.jpeg"

/-- Embeds `get_or_generate_thumbnail` (thumb_utils.py lines 17-60).  Returns
the result (`none` = Python `None`) and the filesystem after the call.
The external resize is modelled exactly: scaling a `w × h` tile by
`num/den` yields `w * num / den × h * num / den` (floored). -/
def get_or_generate_thumbnail (tc : ThumbConfig) (artwork_slug artworks_dir : String)
    (fs : FS) (size : Nat := 200) : Option String × FS :=
  let thumb_path := thumbPathOf artworks_dir artwork_slug size
  if fs.existsPath thumb_path then (some thumb_path, fs)
  else
    let zoom_0_dir := zoom0DirOf artworks_dir artwork_slug
    if !fs.existsPath zoom_0_dir then (none, fs)
    else
      let z1 := zoom0JpgOf artworks_dir artwork_slug
      let z2 := zoom0JpegOf artworks_dir artwork_slug
      let zoom_0 := if fs.existsPath z1 then some z1
        else if fs.existsPath z2 then some z2
        else none
      match zoom_0 with
      | none => (none, fs)
      | some z =>
        if !tc.vipsOk then (none, fs)
        else
          match fs.lookup z with
          | some (.file (some img)) =>
            if tc.hasPyvips then
              -- img.resize(size / max(img.width, img.height)); '.jpg[Q=80]'
              let m := max img.width img.height
              if m = 0 then (none, fs)
              else
                (some thumb_path, fs.insert thumb_path
                  (.file (some ⟨img.width * size / m, img.height * size / m, some 80⟩)))
            else
              -- subprocess: vips resize <tile> <thumb> (size / 256); no quality given
              (some thumb_path, fs.insert thumb_path
                (.file (some ⟨img.width * size / 256, img.height * size / 256, none⟩)))
          | _ => (none, fs)

/-- Embeds `has_thumbnail` (lines 63-66). -/
def has_thumbnail (artwork_slug artworks_dir : String) (fs : FS) (size : Nat := 200) :
    Bool :=
  fs.existsPath (thumbPathOf artworks_dir artwork_slug size)

/-! ### 9. Gallery server (`serve.py`) -/

structure ArtworkEntryJson where
  name : String
  slug : String
  path : String
  thumbnail : String
deriving DecidableEq

def artworksDirOf (script_dir : String) : String := script_dir ++ "/Artworks"

def dziPathOf (artworks_dir name : String) : String :=
  artworks_dir ++ "/" ++ name ++ "/" ++ name ++ ".dzi"

/-- Display name resolution (serve.py lines 82-92): the metadata store
is advisory; absent/corrupt stores and missing records fall back to the
directory name. -/
def displayNameOf (meta : RawStore) (name : String) : String :=
  match meta with
  | .missing => name
  | .corrupt => name
  | .valid l =>
    match lookupRecord l name with
    | some r => r.original_name
    | none => name

def stripPrefixStr (pre s : String) : Option String :=
  if pre.toList.isPrefixOf s.toList then
    some (String.mk (s.toList.drop pre.toList.length))
  else none

/-- Python `artworks_dir.iterdir()`: the direct children of a directory, with
their names. -/
def childrenOf (fs : FS) (dir : String) : List (String × Entry) :=
  fs.entries.filterMap (fun pe =>
    match stripPrefixStr (dir ++ "/") pe.1 with
    | some rest =>
      if rest = "" then none
      else if rest.toList.contains '/' then none
      else some (rest, pe.2)
    | none => none)

/-- Lexicographic comparison of names by code point (Python string `<`). -/
def charListLt : List Char → List Char → Bool
  | [], [] => false
  | [], _ :: _ => true
  | _ :: _, [] => false
  | a :: as, b :: bs =>
    if a.toNat < b.toNat then true
    else if b.toNat < a.toNat then false
    else charListLt as bs

def nameLe (a b : String) : Bool := !charListLt b.toList a.toList

/-- Python `sorted(...)`: stable insertion sort by name. -/
def insertByName (x : String × Entry) : List (String × Entry) → List (String × Entry)
  | [] => [x]
  | y :: rest => if nameLe x.1 y.1 then x :: y :: rest else y :: insertByName x rest

def sortByName (l : List (String × Entry)) : List (String × Entry) :=
  l.foldr insertByName []

/-- Python `item.name.startswith('.')`. -/
def startsWithDot (s : String) : Bool :=
  match s.toList with
  | '.' :: _ => true
  | _ => false

/-- The body of the `send_artworks` loop for one directory entry:
skip non-directories, hidden names, and directories without
`<name>/<name>.dzi`; otherwise build the JSON record. -/
def artworkItemJson (fs : FS) (meta : RawStore) (artworks_dir : String)
    (it : String × Entry) : Option ArtworkEntryJson :=
  if it.2 ≠ Entry.dir then none
  else if startsWithDot it.1 then none
  else if !fs.existsPath (dziPathOf artworks_dir it.1) then none
  else some { name := displayNameOf meta it.1, slug := it.1,
              path := "Artworks/" ++ it.1 ++ "/" ++ it.1 ++ ".dzi",
              thumbnail := "/api/thumb/" ++ it.1 }

/-- Embeds `send_artworks` (serve.py lines 59-106): status code and the JSON
array.  A missing artworks root yields `200 []`. -/
def send_artworks (script_dir : String) (fs : FS) (meta : RawStore) :
    Nat × List ArtworkEntryJson :=
  let artworks_dir := artworksDirOf script_dir
  if !fs.existsPath artworks_dir then (200, [])
  else
    (200, (sortByName (childrenOf fs artworks_dir)).filterMap
      (artworkItemJson fs meta artworks_dir))

inductive ThumbHttp
  | okJpeg (path : String)
  | notFound (body : String)
deriving DecidableEq

/-- Result of `json.dumps` on the error mapping. -/
def thumbErrorBody : String := "\x7b\"error\": \"thumbnail not available\"\x7d"

/-- Embeds `send_thumbnail` (serve.py lines 108-129). -/
def send_thumbnail (tc : ThumbConfig) (slug script_dir : String) (fs : FS) :
    ThumbHttp × FS :=
  let artworks_dir := artworksDirOf script_dir
  let r := get_or_generate_thumbnail tc slug artworks_dir fs 200
  match r.1 with
  | some p => if r.2.existsPath p then (.okJpeg p, r.2) else (.notFound thumbErrorBody, r.2)
  | none => (.notFound thumbErrorBody, r.2)

/-! ### 10. Thumbnail URL routing (`do_GET`, serve.py lines 16-34)

`slug = path.replace('/api/thumb/', '')`: Python `str.replace` removes
every non-overlapping occurrence, scanning left to right.  The fuel is
the string length; each step consumes at least one character, so the
fuel never runs out before the string does. -/

def pyReplaceAux (pat : List Char) : Nat → List Char → List Char
  | 0, s => s
  | _ + 1, [] => []
  | fuel + 1, c :: rest =>
    if pat.isPrefixOf (c :: rest) then pyReplaceAux pat fuel ((c :: rest).drop pat.length)
    else c :: pyReplaceAux pat fuel rest

def pyRemoveAll (pat s : List Char) : List Char := pyReplaceAux pat s.length s

/-- Whether `pat` occurs as a contiguous substring. -/
def containsSub (pat : List Char) : List Char → Bool
  | [] => pat.isEmpty
  | c :: rest => pat.isPrefixOf (c :: rest) || containsSub pat rest

def apiThumbPrefix : List Char := "/api/thumb/".toList

/-- The slug `do_GET` passes to the thumbnail generator for a path under
`/api/thumb/`. -/
def extractThumbSlug (path : String) : String :=
  String.mk (pyRemoveAll apiThumbPrefix path.toList)

end ArtViewer


namespace ArtViewer

/-! ## Claim C8 helpers -/

theorem lookupRecord_setRecord_self (l : List (String × ArtworkRecord))
    (slug : String) (r : ArtworkRecord) :
    lookupRecord (setRecord l slug r) slug = some r := by
  induction l with
  | nil => simp [setRecord, lookupRecord]
  | cons kv rest ih =>
    by_cases h : kv.1 = slug
    · simp [setRecord, h, lookupRecord]
    · simp [setRecord, h, lookupRecord, ih]

theorem lookupRecord_setRecord_other (l : List (String × ArtworkRecord))
    (slug s : String) (r : ArtworkRecord) (h : s ≠ slug) :
    lookupRecord (setRecord l slug r) s = lookupRecord l s := by
  induction l with
  | nil => simp [setRecord, lookupRecord, Ne.symm h]
  | cons kv rest ih =>
    by_cases hk : kv.1 = slug
    · have hks : ¬ kv.1 = s := by rw [hk]; exact Ne.symm h
      simp [setRecord, hk, lookupRecord, hks, Ne.symm h]
    · simp [setRecord, hk, lookupRecord, ih]

/-- Claim C8: writing a metadata record for a slug and then reading the
store yields a record whose `original_name` and `dzi_path` match what was
written; the write merges into the existing store (records of other slugs
are preserved, an existing record for the slug is overwritten in place by
`setRecord`), and a missing or corrupt store loads as empty. -/
theorem C8_metadata_roundtrip (store : RawStore)
    (slug original_name dzi_file s : String) (hs : s ≠ slug) :
    lookupRecord (loadMetadata (save_artwork_metadata slug original_name dzi_file store)) slug
      = some ⟨original_name, slug ++ "/" ++ slug ++ ".dzi", dzi_file⟩
    ∧ lookupRecord (loadMetadata (save_artwork_metadata slug original_name dzi_file store)) s
      = lookupRecord (loadMetadata store) s
    ∧ loadMetadata .missing = [] ∧ loadMetadata .corrupt = [] := by
  refine ⟨?_, ?_, rfl, rfl⟩
  · simp [save_artwork_metadata, loadMetadata, lookupRecord_setRecord_self]
  · simp [save_artwork_metadata, loadMetadata, lookupRecord_setRecord_other _ _ _ _ hs]

/-- Witness for C8 at a concrete one-record store. -/
theorem C8_metadata_roundtrip_witness :
    lookupRecord (loadMetadata (save_artwork_metadata "x" "My Pic" "/app/x/x.dzi"
        (.valid [("y", ⟨"Y", "y/y.dzi", "/app/y/y.dzi"⟩)]))) "x"
      = some ⟨"My Pic", "x" ++ "/" ++ "x" ++ ".dzi", "/app/x/x.dzi"⟩
    ∧ lookupRecord (loadMetadata (save_artwork_metadata "x" "My Pic" "/app/x/x.dzi"
        (.valid [("y", ⟨"Y", "y/y.dzi", "/app/y/y.dzi"⟩)]))) "y"
      = lookupRecord (loadMetadata (.valid [("y", ⟨"Y", "y/y.dzi", "/app/y/y.dzi"⟩)])) "y"
    ∧ loadMetadata .missing = [] ∧ loadMetadata .corrupt = [] :=
  C8_metadata_roundtrip (.valid [("y", ⟨"Y", "y/y.dzi", "/app/y/y.dzi"⟩)])
    "x" "My Pic" "/app/x/x.dzi" "y" (by decide)

/-! ## Claim C7 -/

/-- Claim C7: when the thumbnail file already exists at the deterministic
path, the generator returns that path immediately with the filesystem
unchanged, and a second call returns the same path, again without any
write (idempotence, no staleness check). -/
theorem C7_thumbnail_idempotent (tc : ThumbConfig) (slug root : String) (fs : FS)
    (size : Nat) (h : fs.existsPath (thumbPathOf root slug size) = true) :
    get_or_generate_thumbnail tc slug root fs size = (some (thumbPathOf root slug size), fs)
    ∧ get_or_generate_thumbnail tc slug root
        (get_or_generate_thumbnail tc slug root fs size).2 size
      = (some (thumbPathOf root slug size), fs) := by
  have h1 : get_or_generate_thumbnail tc slug root fs size
      = (some (thumbPathOf root slug size), fs) := by
    unfold get_or_generate_thumbnail
    simp [h]
  refine ⟨h1, ?_⟩
  rw [h1]
  exact h1

/-- Witness for C7 at a concrete cached thumbnail. -/
theorem C7_thumbnail_idempotent_witness :
    get_or_generate_thumbnail ⟨true, true⟩ "x" "/app/Artworks"
        ⟨[("/app/Artworks/x/.thumb-200.jpg", .file (some ⟨50, 50, some 80⟩))]⟩ 200
      = (some (thumbPathOf "/app/Artworks" "x" 200),
         ⟨[("/app/Artworks/x/.thumb-200.jpg", .file (some ⟨50, 50, some 80⟩))]⟩)
    ∧ get_or_generate_thumbnail ⟨true, true⟩ "x" "/app/Artworks"
        (get_or_generate_thumbnail ⟨true, true⟩ "x" "/app/Artworks"
          ⟨[("/app/Artworks/x/.thumb-200.jpg", .file (some ⟨50, 50, some 80⟩))]⟩ 200).2 200
      = (some (thumbPathOf "/app/Artworks" "x" 200),
         ⟨[("/app/Artworks/x/.thumb-200.jpg", .file (some ⟨50, 50, some 80⟩))]⟩) :=
  C7_thumbnail_idempotent ⟨true, true⟩ "x" "/app/Artworks"
    ⟨[("/app/Artworks/x/.thumb-200.jpg", .file (some ⟨50, 50, some 80⟩))]⟩ 200 (by decide)

end ArtViewer

namespace ArtViewer

/-! ## Claim C6 -/

/-- Claim C6 counterexample: a slug whose pyramid has no level-0 tile but
whose cached thumbnail file exists makes the generator return the cached
path (not `none`), and the thumbnail endpoint answer 200, contradicting
the claim as stated. -/
theorem C6_cached_thumb_counterexample :
    (FS.existsPath ⟨[(thumbPathOf "/app/Artworks" "x" 200, .file (some ⟨50, 50, some 80⟩))]⟩
        (zoom0JpgOf "/app/Artworks" "x") = false)
    ∧ (FS.existsPath ⟨[(thumbPathOf "/app/Artworks" "x" 200, .file (some ⟨50, 50, some 80⟩))]⟩
        (zoom0JpegOf "/app/Artworks" "x") = false)
    ∧ (get_or_generate_thumbnail ⟨true, true⟩ "x" "/app/Artworks"
        ⟨[(thumbPathOf "/app/Artworks" "x" 200, .file (some ⟨50, 50, some 80⟩))]⟩ 200).1
      = some (thumbPathOf "/app/Artworks" "x" 200)
    ∧ (some (thumbPathOf "/app/Artworks" "x" 200) ≠ (none : Option String))
    ∧ (send_thumbnail ⟨true, true⟩ "x" "/app"
        ⟨[(thumbPathOf "/app/Artworks" "x" 200, .file (some ⟨50, 50, some 80⟩))]⟩).1
      = .okJpeg (thumbPathOf "/app/Artworks" "x" 200)
    ∧ (ThumbHttp.okJpeg (thumbPathOf "/app/Artworks" "x" 200) ≠ .notFound thumbErrorBody) := by
  refine ⟨by decide, by decide, by decide, by decide, by decide, by decide⟩

/-- Claim C6, amended: for a slug with no cached thumbnail, if the
pyramid has no level-0 tile (`0_0.jpg` or `0_0.jpeg`) the generator
returns `none` and the endpoint responds 404 with the JSON error body;
and any failure of the external resize/encode step is swallowed,
yielding `none` rather than an error. -/
theorem C6_unavailable_amended (tc : ThumbConfig) (slug script_dir : String) (fs : FS)
    (h1 : fs.existsPath (thumbPathOf (artworksDirOf script_dir) slug 200) = false) :
    ((fs.existsPath (zoom0JpgOf (artworksDirOf script_dir) slug) = false →
      fs.existsPath (zoom0JpegOf (artworksDirOf script_dir) slug) = false →
      get_or_generate_thumbnail tc slug (artworksDirOf script_dir) fs 200 = (none, fs)
      ∧ (send_thumbnail tc slug script_dir fs).1 = .notFound thumbErrorBody)
    ∧ (tc.vipsOk = false →
      (get_or_generate_thumbnail tc slug (artworksDirOf script_dir) fs 200).1 = none)) := by
  constructor
  · intro h2 h3
    have hg : get_or_generate_thumbnail tc slug (artworksDirOf script_dir) fs 200 = (none, fs) := by
      unfold get_or_generate_thumbnail
      simp [h1, h2, h3]
    refine ⟨hg, ?_⟩
    simp [send_thumbnail, hg]
  · intro hv
    unfold get_or_generate_thumbnail
    simp [h1, hv]
    split
    · simp
    · split <;> simp

/-- Witness for C6 at a concrete empty filesystem. -/
theorem C6_unavailable_witness :
    (get_or_generate_thumbnail ⟨true, false⟩ "x" (artworksDirOf "/app") ⟨[]⟩ 200 = (none, ⟨[]⟩)
    ∧ (send_thumbnail ⟨true, false⟩ "x" "/app" ⟨[]⟩).1 = .notFound thumbErrorBody)
    ∧ (get_or_generate_thumbnail ⟨true, false⟩ "x" (artworksDirOf "/app") ⟨[]⟩ 200).1 = none :=
  ⟨(C6_unavailable_amended ⟨true, false⟩ "x" "/app" ⟨[]⟩ (by decide)).1 (by decide) (by decide),
   (C6_unavailable_amended ⟨true, false⟩ "x" "/app" ⟨[]⟩ (by decide)).2 (by decide)⟩

end ArtViewer

namespace ArtViewer

/-! ## Claim C5 -/

/-- Claim C5 counterexample: on the command-line fallback path a 64 by 64
level-0 tile is scaled by the fixed factor 200/256 to 50 by 50 (longer
edge 50, not 200), with no quality specified in the invocation. -/
theorem C5_cli_resize_counterexample :
    ((get_or_generate_thumbnail ⟨false, true⟩ "x" "/app/Artworks"
        ⟨[(zoom0DirOf "/app/Artworks" "x", .dir),
          (zoom0JpgOf "/app/Artworks" "x", .file (some ⟨64, 64, some 85⟩))]⟩ 200).1
      = some (thumbPathOf "/app/Artworks" "x" 200))
    ∧ ((get_or_generate_thumbnail ⟨false, true⟩ "x" "/app/Artworks"
        ⟨[(zoom0DirOf "/app/Artworks" "x", .dir),
          (zoom0JpgOf "/app/Artworks" "x", .file (some ⟨64, 64, some 85⟩))]⟩ 200).2.lookup
        (thumbPathOf "/app/Artworks" "x" 200)
      = some (.file (some ⟨50, 50, none⟩)))
    ∧ (max 50 50 ≠ 200)
    ∧ ((none : Option Nat) ≠ some 80) := by
  refine ⟨by decide, by decide, by decide, by decide⟩

/-- Claim C5, amended: on the in-process library path the tile is scaled
by `size / max(width, height)` so the longer edge of the written
thumbnail equals `size`, it is encoded at JPEG quality 80, written to
the deterministic path and that path is returned; the command-line
fallback instead scales by the fixed factor `size / 256` and specifies
no quality, so its longer edge equals `size` only for tiles whose
longer edge is 256. -/
theorem C5_thumbnail_resize_amended (slug root : String) (fs : FS) (size w h : Nat)
    (q : Option Nat)
    (h1 : fs.existsPath (thumbPathOf root slug size) = false)
    (h2 : fs.existsPath (zoom0DirOf root slug) = true)
    (h3 : fs.existsPath (zoom0JpgOf root slug) = true)
    (h4 : fs.lookup (zoom0JpgOf root slug) = some (.file (some ⟨w, h, q⟩)))
    (hw : 0 < w) (hh : 0 < h) :
    (get_or_generate_thumbnail ⟨true, true⟩ slug root fs size
      = (some (thumbPathOf root slug size),
         fs.insert (thumbPathOf root slug size)
           (.file (some ⟨w * size / max w h, h * size / max w h, some 80⟩))))
    ∧ max (w * size / max w h) (h * size / max w h) = size
    ∧ (get_or_generate_thumbnail ⟨false, true⟩ slug root fs size
      = (some (thumbPathOf root slug size),
         fs.insert (thumbPathOf root slug size)
           (.file (some ⟨w * size / 256, h * size / 256, none⟩)))) := by
  have hm : ¬ (max w h = 0) := by
    have := Nat.lt_of_lt_of_le hw (le_max_left w h)
    omega
  refine ⟨?_, ?_, ?_⟩
  · unfold get_or_generate_thumbnail
    simp [h1, h2, h3, h4, hm]
  · rcases Nat.le_total w h with hle | hle
    · have hmx : max w h = h := Nat.max_eq_right hle
      rw [hmx]
      have hle2 : w * size / h ≤ h * size / h :=
        Nat.div_le_div_right (Nat.mul_le_mul_right _ hle)
      rw [Nat.max_eq_right (by simpa using hle2)]
      exact Nat.mul_div_cancel_left _ (by omega)
    · have hmx : max w h = w := Nat.max_eq_left hle
      rw [hmx]
      have hle2 : h * size / w ≤ w * size / w :=
        Nat.div_le_div_right (Nat.mul_le_mul_right _ hle)
      rw [Nat.max_eq_left (by simpa using hle2)]
      exact Nat.mul_div_cancel_left _ (by omega)
  · unfold get_or_generate_thumbnail
    simp [h1, h2, h3, h4]

/-- Witness for C5 at a concrete 64 by 64 tile and size 200. -/
theorem C5_thumbnail_resize_witness :
    (get_or_generate_thumbnail ⟨true, true⟩ "x" "/app/Artworks"
        ⟨[(zoom0DirOf "/app/Artworks" "x", .dir),
          (zoom0JpgOf "/app/Artworks" "x", .file (some ⟨64, 64, some 85⟩))]⟩ 200
      = (some (thumbPathOf "/app/Artworks" "x" 200),
         FS.insert ⟨[(zoom0DirOf "/app/Artworks" "x", .dir),
           (zoom0JpgOf "/app/Artworks" "x", .file (some ⟨64, 64, some 85⟩))]⟩
           (thumbPathOf "/app/Artworks" "x" 200)
           (.file (some ⟨64 * 200 / max 64 64, 64 * 200 / max 64 64, some 80⟩))))
    ∧ max (64 * 200 / max 64 64) (64 * 200 / max 64 64) = 200
    ∧ (get_or_generate_thumbnail ⟨false, true⟩ "x" "/app/Artworks"
        ⟨[(zoom0DirOf "/app/Artworks" "x", .dir),
          (zoom0JpgOf "/app/Artworks" "x", .file (some ⟨64, 64, some 85⟩))]⟩ 200
      = (some (thumbPathOf "/app/Artworks" "x" 200),
         FS.insert ⟨[(zoom0DirOf "/app/Artworks" "x", .dir),
           (zoom0JpgOf "/app/Artworks" "x", .file (some ⟨64, 64, some 85⟩))]⟩
           (thumbPathOf "/app/Artworks" "x" 200)
           (.file (some ⟨64 * 200 / 256, 64 * 200 / 256, none⟩)))) :=
  C5_thumbnail_resize_amended "x" "/app/Artworks"
    ⟨[(zoom0DirOf "/app/Artworks" "x", .dir),
      (zoom0JpgOf "/app/Artworks" "x", .file (some ⟨64, 64, some 85⟩))]⟩
    200 64 64 (some 85) (by decide) (by decide) (by decide) (by decide)
    (by decide) (by decide)

end ArtViewer

namespace ArtViewer

/-! ## Claim C4 -/

/-- Claim C4 counterexample: the command-line fallback path reports
success when the tool exits zero even though neither the descriptor file
nor the tile directory was created, contradicting the claim that both
paths verify the outputs. -/
theorem C4_cli_unverified_counterexample :
    ((convert_with_cli ⟨true, true, true, false, false⟩ "/srv/img.jpg" "/app/img" "img"
        ⟨[]⟩).2 = none)
    ∧ ((convert_with_cli ⟨true, true, true, false, false⟩ "/srv/img.jpg" "/app/img" "img"
        ⟨[]⟩).1.existsPath "/app/img/img.dzi" = false)
    ∧ ((convert_with_cli ⟨true, true, true, false, false⟩ "/srv/img.jpg" "/app/img" "img"
        ⟨[]⟩).1.existsPath "/app/img/img_files" = false) := by
  refine ⟨by decide, by decide, by decide⟩

/-- Claim C4, amended: only the in-process library path verifies the
outputs after tiling: it succeeds only when both the descriptor and the
tile directory exist, and when the tiling call itself did not raise it
fails with an error naming whichever artifact is missing; the
command-line fallback raises exactly when the tool exits non-zero and
performs no artifact verification. -/
theorem C4_postcondition_amended (b : VipsBehavior) (p d s : String) (fs : FS) :
    ((convert_with_pyvips b p d s fs).2 = none →
      (convert_with_pyvips b p d s fs).1.existsPath (d ++ "/" ++ s ++ ".dzi") = true
      ∧ (convert_with_pyvips b p d s fs).1.existsPath (d ++ "/" ++ s ++ "_files") = true)
    ∧ (b.loadOk = true → b.dzsaveOk = true →
      (convert_with_pyvips b p d s fs).1.existsPath (d ++ "/" ++ s ++ ".dzi") = false →
      (convert_with_pyvips b p d s fs).2
        = some ("DZI file not created: " ++ (d ++ "/" ++ s ++ ".dzi")))
    ∧ (b.loadOk = true → b.dzsaveOk = true →
      (convert_with_pyvips b p d s fs).1.existsPath (d ++ "/" ++ s ++ ".dzi") = true →
      (convert_with_pyvips b p d s fs).1.existsPath (d ++ "/" ++ s ++ "_files") = false →
      (convert_with_pyvips b p d s fs).2
        = some ("Tiles directory not created: " ++ (d ++ "/" ++ s ++ "_files")))
    ∧ ((convert_with_cli b p d s fs).2 = none ↔ b.cliExitZero = true) := by
  refine ⟨?_, ?_, ?_, ?_⟩ <;>
    · simp only [convert_with_pyvips, convert_with_cli]
      split_ifs <;> simp_all

end ArtViewer

namespace ArtViewer

/-- Witness for C4: a concrete run where the tool omitted its outputs. -/
theorem C4_postcondition_witness :
    (convert_with_pyvips ⟨true, true, true, false, false⟩ "/srv/img.jpg" "/app/img" "img"
        ⟨[]⟩).2
      = some ("DZI file not created: " ++ ("/app/img" ++ "/" ++ "img" ++ ".dzi")) :=
  (C4_postcondition_amended ⟨true, true, true, false, false⟩ "/srv/img.jpg" "/app/img" "img"
    ⟨[]⟩).2.1 (by decide) (by decide) (by decide)

/-! ## Claim C2 -/

/-- Claim C2 counterexample: a concrete successful conversion whose
effect trace contains the tiling step but no copy effect at all, so no
staged copy is ever made before tiling. -/
theorem C2_no_copy_counterexample :
    ((convert_to_dzi
        ⟨true, ⟨true, true, true, true, true⟩, "/app", "/srv/photo.jpg", false⟩
        ⟨⟨[("/srv/photo.jpg", .file (some ⟨1000, 800, none⟩))]⟩, .missing⟩).trace.any
        isCopyEffect = false)
    ∧ ((convert_to_dzi
        ⟨true, ⟨true, true, true, true, true⟩, "/app", "/srv/photo.jpg", false⟩
        ⟨⟨[("/srv/photo.jpg", .file (some ⟨1000, 800, none⟩))]⟩, .missing⟩).trace.any
        isTileEffect = true)
    ∧ ((convert_to_dzi
        ⟨true, ⟨true, true, true, true, true⟩, "/app", "/srv/photo.jpg", false⟩
        ⟨⟨[("/srv/photo.jpg", .file (some ⟨1000, 800, none⟩))]⟩, .missing⟩).exit
      = .success) := by
  refine ⟨by decide, by decide, by decide⟩

/-- Claim C2, amended: the converter never copies the source file
anywhere; every tiling effect in any run reads directly from the
original resolved source path, so no staged copy under the artworks root
ever exists (before or after the conversion). -/
theorem C2_no_staging_amended (cfg : ConvConfig) (st : ConvState) :
    ((convert_to_dzi cfg st).trace.any isCopyEffect = false)
    ∧ ((convert_to_dzi cfg st).trace.all (tileSrcIs cfg.imagePath) = true) := by
  unfold convert_to_dzi
  by_cases h0 : (!st.fs.existsPath cfg.imagePath) = true
  · simp [h0, isCopyEffect, tileSrcIs]
  · simp only [h0, if_false, Bool.false_eq_true]
    constructor <;> split_ifs <;> split <;>
      simp [isCopyEffect, isTileEffect, tileSrcIs]

/-! ## Claim C9 -/

/-- Claim C9, amended: for every path at which no filesystem entry
exists, the converter reports a file-not-found error, exits non-zero,
and leaves the filesystem and metadata store untouched (no output
directory, no metadata entry). -/
theorem C9_missing_source_amended (cfg : ConvConfig) (st : ConvState)
    (h : st.fs.existsPath cfg.imagePath = false) :
    convert_to_dzi cfg st
      = { exit := .failure ("Error: File not found: " ++ cfg.imagePath),
          state := st, trace := [Effect.checkExists cfg.imagePath] } := by
  unfold convert_to_dzi
  simp [h]

/-- Witness for C9 at a concrete missing path. -/
theorem C9_missing_source_witness :
    convert_to_dzi ⟨true, ⟨true, true, true, true, true⟩, "/app", "/srv/nope.jpg", false⟩
        ⟨⟨[]⟩, .missing⟩
      = { exit := .failure ("Error: File not found: " ++ "/srv/nope.jpg"),
          state := ⟨⟨[]⟩, .missing⟩, trace := [Effect.checkExists "/srv/nope.jpg"] } :=
  C9_missing_source_amended ⟨true, ⟨true, true, true, true, true⟩, "/app", "/srv/nope.jpg", false⟩
    ⟨⟨[]⟩, .missing⟩ (by decide)

/-- Claim C9 counterexample: a path naming an existing directory is not
an existing file, yet the converter proceeds past its existence check
and creates the output directory before the tiling step fails, so an
artifact is created. -/
theorem C9_directory_source_counterexample :
    ((FS.isFile ⟨[("/srv/pics", .dir)]⟩ "/srv/pics") = false)
    ∧ ((convert_to_dzi ⟨true, ⟨false, true, true, false, false⟩, "/app", "/srv/pics", false⟩
        ⟨⟨[("/srv/pics", .dir)]⟩, .missing⟩).exit
      = .failure ("unable to load source image /srv/pics"))
    ∧ ((convert_to_dzi ⟨true, ⟨false, true, true, false, false⟩, "/app", "/srv/pics", false⟩
        ⟨⟨[("/srv/pics", .dir)]⟩, .missing⟩).state.fs.existsPath "/app/pics" = true)
    ∧ ((FS.existsPath ⟨[("/srv/pics", .dir)]⟩ "/app/pics") = false) := by
  refine ⟨by decide, by decide, by decide, by decide⟩

end ArtViewer

namespace ArtViewer

/-! ## Claim C1 -/

/-- Claim C1 counterexample: on a root holding exactly slugs a and b the
listing's `path` fields are `Artworks/<slug>/<slug>.dzi`, not the
claimed `<slug>/<slug>.dzi`. -/
theorem C1_path_counterexample :
    ((send_artworks "/app"
        ⟨[("/app/Artworks", .dir), ("/app/Artworks/a", .dir),
          ("/app/Artworks/a/a.dzi", .file none), ("/app/Artworks/b", .dir),
          ("/app/Artworks/b/b.dzi", .file none)]⟩ .missing).2.map ArtworkEntryJson.path
      = ["Artworks/a/a.dzi", "Artworks/b/b.dzi"])
    ∧ (["Artworks/a/a.dzi", "Artworks/b/b.dzi"] ≠ ["a/a.dzi", "b/b.dzi"]) := by
  refine ⟨by decide, by decide⟩

/-- Claim C1, amended: for every artworks root containing exactly the
subdirectories a and b, each with its `<slug>.dzi`, the listing endpoint
returns 200 with exactly two entries sorted lexicographically by slug,
each with a non-empty `path` equal to `Artworks/<slug>/<slug>.dzi`. -/
theorem C1_artworks_listing_amended (script_dir : String) (fs : FS) (meta : RawStore)
    (hroot : fs.existsPath (artworksDirOf script_dir) = true)
    (hch : childrenOf fs (artworksDirOf script_dir) = [("a", .dir), ("b", .dir)]
         ∨ childrenOf fs (artworksDirOf script_dir) = [("b", .dir), ("a", .dir)])
    (ha : fs.existsPath (dziPathOf (artworksDirOf script_dir) "a") = true)
    (hb : fs.existsPath (dziPathOf (artworksDirOf script_dir) "b") = true) :
    (send_artworks script_dir fs meta).1 = 200
    ∧ (send_artworks script_dir fs meta).2.map ArtworkEntryJson.slug = ["a", "b"]
    ∧ (send_artworks script_dir fs meta).2.map ArtworkEntryJson.path
        = ["Artworks/a/a.dzi", "Artworks/b/b.dzi"]
    ∧ ∀ e ∈ (send_artworks script_dir fs meta).2, e.path ≠ "" := by
  have hA : artworkItemJson fs meta (artworksDirOf script_dir) ("a", .dir)
      = some ⟨displayNameOf meta "a", "a", "Artworks/" ++ "a" ++ "/" ++ "a" ++ ".dzi",
              "/api/thumb/" ++ "a"⟩ := by
    simp [artworkItemJson, ha, show startsWithDot "a" = false from by decide]
  have hB : artworkItemJson fs meta (artworksDirOf script_dir) ("b", .dir)
      = some ⟨displayNameOf meta "b", "b", "Artworks/" ++ "b" ++ "/" ++ "b" ++ ".dzi",
              "/api/thumb/" ++ "b"⟩ := by
    simp [artworkItemJson, hb, show startsWithDot "b" = false from by decide]
  have hsend : send_artworks script_dir fs meta
      = (200, [⟨displayNameOf meta "a", "a", "Artworks/" ++ "a" ++ "/" ++ "a" ++ ".dzi",
                "/api/thumb/" ++ "a"⟩,
               ⟨displayNameOf meta "b", "b", "Artworks/" ++ "b" ++ "/" ++ "b" ++ ".dzi",
                "/api/thumb/" ++ "b"⟩]) := by
    unfold send_artworks
    simp only [hroot, Bool.not_true, Bool.false_eq_true, if_false]
    rcases hch with h | h <;> rw [h] <;>
      first
      | rw [show sortByName [(("a" : String), Entry.dir), (("b" : String), Entry.dir)]
            = [("a", Entry.dir), ("b", Entry.dir)] from by decide]
      | rw [show sortByName [(("b" : String), Entry.dir), (("a" : String), Entry.dir)]
            = [("a", Entry.dir), ("b", Entry.dir)] from by decide]
    all_goals simp [List.filterMap_cons, hA, hB]
  rw [hsend]
  refine ⟨rfl, by simp, by simp, ?_⟩
  intro e he
  simp at he
  rcases he with h | h <;> rw [h] <;> simp

/-- Witness for C1 on a concrete five-entry filesystem. -/
theorem C1_artworks_listing_witness :
    ((send_artworks "/app"
        ⟨[("/app/Artworks", .dir), ("/app/Artworks/a", .dir),
          ("/app/Artworks/a/a.dzi", .file none), ("/app/Artworks/b", .dir),
          ("/app/Artworks/b/b.dzi", .file none)]⟩ .missing).1 = 200)
    ∧ ((send_artworks "/app"
        ⟨[("/app/Artworks", .dir), ("/app/Artworks/a", .dir),
          ("/app/Artworks/a/a.dzi", .file none), ("/app/Artworks/b", .dir),
          ("/app/Artworks/b/b.dzi", .file none)]⟩ .missing).2.map ArtworkEntryJson.slug
      = ["a", "b"])
    ∧ ((send_artworks "/app"
        ⟨[("/app/Artworks", .dir), ("/app/Artworks/a", .dir),
          ("/app/Artworks/a/a.dzi", .file none), ("/app/Artworks/b", .dir),
          ("/app/Artworks/b/b.dzi", .file none)]⟩ .missing).2.map ArtworkEntryJson.path
      = ["Artworks/a/a.dzi", "Artworks/b/b.dzi"])
    ∧ ∀ e ∈ (send_artworks "/app"
        ⟨[("/app/Artworks", .dir), ("/app/Artworks/a", .dir),
          ("/app/Artworks/a/a.dzi", .file none), ("/app/Artworks/b", .dir),
          ("/app/Artworks/b/b.dzi", .file none)]⟩ .missing).2, e.path ≠ "" :=
  C1_artworks_listing_amended "/app"
    ⟨[("/app/Artworks", .dir), ("/app/Artworks/a", .dir),
      ("/app/Artworks/a/a.dzi", .file none), ("/app/Artworks/b", .dir),
      ("/app/Artworks/b/b.dzi", .file none)]⟩ .missing
    (by decide) (Or.inl (by decide)) (by decide) (by decide)

end ArtViewer

namespace ArtViewer

/-! ## Claim C10 -/

theorem isPrefixOf_append_self (pat rest : List Char) :
    pat.isPrefixOf (pat ++ rest) = true := by
  induction pat with
  | nil => simp [List.isPrefixOf]
  | cons p ps ih => simpa [List.isPrefixOf] using ih

theorem pyReplaceAux_no_occ (pat : List Char) :
    ∀ (fuel : Nat) (s : List Char), containsSub pat s = false →
      pyReplaceAux pat fuel s = s := by
  intro fuel
  induction fuel with
  | zero => intro s _; rfl
  | succ n ih =>
    intro s h
    cases s with
    | nil => rfl
    | cons c rest =>
      have h2 := h
      simp only [containsSub, Bool.or_eq_false_iff] at h2
      unfold pyReplaceAux
      rw [if_neg (by simp [h2.1])]
      rw [ih rest h2.2]

theorem pyReplaceAux_strip (pat rest : List Char) (k : Nat) (hne : pat ≠ [])
    (h : containsSub pat rest = false) :
    pyReplaceAux pat (k + 1) (pat ++ rest) = rest := by
  cases pat with
  | nil => exact absurd rfl hne
  | cons p ps =>
    have hpre : (p :: ps).isPrefixOf ((p :: ps) ++ rest) = true :=
      isPrefixOf_append_self (p :: ps) rest
    rw [List.cons_append] at hpre ⊢
    unfold pyReplaceAux
    rw [if_pos hpre]
    rw [show (p :: (ps ++ rest)).drop (p :: ps).length = rest from by
      rw [← List.cons_append]; exact List.drop_left (p :: ps) rest]
    exact pyReplaceAux_no_occ (p :: ps) k rest h

theorem pyRemoveAll_strip (rest : List Char)
    (h : containsSub apiThumbPrefix rest = false) :
    pyRemoveAll apiThumbPrefix (apiThumbPrefix ++ rest) = rest := by
  unfold pyRemoveAll
  rw [List.length_append, show apiThumbPrefix.length = 11 from by decide,
    show 11 + rest.length = (10 + rest.length) + 1 from by omega]
  exact pyReplaceAux_strip apiThumbPrefix rest (10 + rest.length) (by decide) h

/-- Claim C10: the server passes the remainder of every
`/api/thumb/`-prefixed path to the thumbnail generator unchanged
(whenever the prefix does not recur in the remainder, Python
`str.replace` leaves exactly the remainder), and a slug containing
`..` components makes the generator's thumbnail path resolve outside
the artworks root; on a cache miss the thumbnail is written at that
escaped path. -/
theorem C10_thumb_traversal :
    (∀ rest : List Char, containsSub apiThumbPrefix rest = false →
      extractThumbSlug (String.mk (apiThumbPrefix ++ rest)) = String.mk rest)
    ∧ extractThumbSlug "/api/thumb/../../../etc/secret" = "../../../etc/secret"
    ∧ isUnder (normalizePath (splitSlash "/srv/app/Artworks"))
        (normalizePath (splitSlash
          (thumbPathOf "/srv/app/Artworks" "../../../etc/secret" 200))) = false
    ∧ ((get_or_generate_thumbnail ⟨true, true⟩ "../../../etc/secret" "/srv/app/Artworks"
        ⟨[(zoom0DirOf "/srv/app/Artworks" "../../../etc/secret", .dir),
          (zoom0JpgOf "/srv/app/Artworks" "../../../etc/secret", .file (some ⟨64, 64, none⟩))]⟩
        200).2.existsPath
        (thumbPathOf "/srv/app/Artworks" "../../../etc/secret" 200) = true) := by
  refine ⟨?_, by decide, by decide, by decide⟩
  intro rest h
  show String.mk (pyRemoveAll apiThumbPrefix (String.mk (apiThumbPrefix ++ rest)).toList)
    = String.mk rest
  rw [show (String.mk (apiThumbPrefix ++ rest)).toList = apiThumbPrefix ++ rest from rfl]
  rw [pyRemoveAll_strip rest h]

/-- Witness for C10 at a concrete traversal slug. -/
theorem C10_thumb_traversal_witness :
    extractThumbSlug (String.mk (apiThumbPrefix ++ "../../../etc/secret".toList))
      = String.mk "../../../etc/secret".toList :=
  C10_thumb_traversal.1 "../../../etc/secret".toList (by decide)

end ArtViewer

namespace ArtViewer

/-! ## Claim C3: character-level lemmas -/

theorem char_eq_of_toNat_eq {a b : Char} (h : a.toNat = b.toNat) : a = b :=
  Char.ext (UInt32.ext h)

theorem toNat_lowerChar (c : Char) : (lowerChar c).toNat = lowerNat c.toNat := by
  unfold lowerChar lowerNat
  by_cases h : 65 ≤ c.toNat ∧ c.toNat ≤ 90
  · rw [if_pos h, if_pos h]
    unfold Char.ofNat
    rw [dif_pos]
    · rfl
    · exact Or.inl (by omega)
  · rw [if_neg h, if_neg h]

theorem lowerChar_word {c : Char} (h : isWordChar c = true) :
    isLowerWord (lowerChar c) = true := by
  unfold isWordChar wordNat at h
  unfold isLowerWord isLowerAlnum
  rw [toNat_lowerChar]
  unfold lowerNat
  simp only [Bool.or_eq_true, Bool.and_eq_true, decide_eq_true_eq, beq_iff_eq] at h ⊢
  by_cases hc : 65 ≤ c.toNat ∧ c.toNat ≤ 90
  · rw [if_pos hc]; omega
  · rw [if_neg hc]; omega

theorem lowerChar_dash_iff {c : Char} : lowerChar c = '-' ↔ c = '-' := by
  constructor
  · intro h
    have ht : (lowerChar c).toNat = lowerNat c.toNat := toNat_lowerChar c
    rw [h] at ht
    have h45 : lowerNat c.toNat = 45 := ht.symm
    unfold lowerNat at h45
    by_cases hc : 65 ≤ c.toNat ∧ c.toNat ≤ 90
    · rw [if_pos hc] at h45; omega
    · rw [if_neg hc] at h45
      exact char_eq_of_toNat_eq h45
  · intro h
    rw [h]
    decide

/-! ## Claim C3: `noAdjDash` toolkit -/

theorem noAdjDash_cons_of (a : Char) (l : List Char) (hl : noAdjDash l = true)
    (hhead : ∀ b, l.head? = some b → a = '-' → b = '-' → False) :
    noAdjDash (a :: l) = true := by
  cases l with
  | nil => rfl
  | cons b rest =>
    show (!(a == '-' && b == '-') && noAdjDash (b :: rest)) = true
    rw [hl, Bool.and_true]
    by_cases ha : a = '-'
    · by_cases hb : b = '-'
      · exact (hhead b rfl ha hb).elim
      · simp [hb]
    · simp [ha]

theorem noAdjDash_tail {a : Char} {l : List Char} (h : noAdjDash (a :: l) = true) :
    noAdjDash l = true := by
  cases l with
  | nil => rfl
  | cons b rest =>
    have h2 : (!(a == '-' && b == '-') && noAdjDash (b :: rest)) = true := h
    simp only [Bool.and_eq_true] at h2
    exact h2.2

theorem noAdjDash_head {a b : Char} {l : List Char}
    (h : noAdjDash (a :: b :: l) = true) : ¬(a = '-' ∧ b = '-') := by
  rintro ⟨h1, h2⟩
  have h3 : (!(a == '-' && b == '-') && noAdjDash (b :: l)) = true := h
  rw [h1, h2] at h3
  simp at h3

theorem noAdjDash_append_left (l t : List Char) (h : noAdjDash (l ++ t) = true) :
    noAdjDash l = true := by
  induction l with
  | nil => rfl
  | cons a l ih =>
    cases l with
    | nil => rfl
    | cons b rest =>
      have hh : ¬(a = '-' ∧ b = '-') := noAdjDash_head (l := rest ++ t) (by simpa using h)
      have ht : noAdjDash ((b :: rest) ++ t) = true :=
        noAdjDash_tail (a := a) (by simpa using h)
      have hr : noAdjDash (b :: rest) = true := ih (by simpa using ht)
      apply noAdjDash_cons_of _ _ hr
      intro x hx h1 h2
      have hxb : x = b := by simpa using hx.symm
      exact hh ⟨h1, by rw [← hxb]; exact h2⟩

theorem noAdjDash_append_right (l t : List Char) (h : noAdjDash (l ++ t) = true) :
    noAdjDash t = true := by
  induction l with
  | nil => exact h
  | cons a l ih => exact ih (noAdjDash_tail (a := a) (by simpa using h))

/-! ## Claim C3: collapse / map / strip invariants -/

theorem collapse_spec : ∀ l : List Char,
    (∀ c ∈ l, keepChar c = true) →
    (∀ inRun : Bool, (∀ c ∈ collapseRuns inRun l, c = '-' ∨ isWordChar c = true)
      ∧ noAdjDash (collapseRuns inRun l) = true)
    ∧ (∀ b, (collapseRuns true l).head? = some b → b ≠ '-') := by
  intro l
  induction l with
  | nil =>
    intro _
    refine ⟨fun inRun => ⟨by simp [collapseRuns], by simp [collapseRuns, noAdjDash]⟩, ?_⟩
    intro b hb
    simp [collapseRuns] at hb
  | cons c rest ih =>
    intro h
    have hrest := ih (fun x hx => h x (List.mem_cons_of_mem c hx))
    have hc : keepChar c = true := h c (List.mem_cons_self c rest)
    by_cases hds : isDashOrSpace c = true
    · have eT : collapseRuns true (c :: rest) = collapseRuns true rest := by
        simp [collapseRuns, hds]
      have eF : collapseRuns false (c :: rest) = '-' :: collapseRuns true rest := by
        simp [collapseRuns, hds]
      refine ⟨fun inRun => ?_, ?_⟩
      · cases inRun with
        | false =>
          rw [eF]
          have hX := hrest.1 true
          constructor
          · intro x hx
            rcases List.mem_cons.mp hx with hx | hx
            · exact Or.inl hx
            · exact hX.1 x hx
          · apply noAdjDash_cons_of _ _ hX.2
            intro b hb _ hb2
            exact hrest.2 b hb hb2
        | true =>
          rw [eT]
          exact hrest.1 true
      · rw [eT]
        exact hrest.2
    · have hcne : c ≠ '-' := by
        intro hceq
        rw [hceq] at hds
        exact hds (by decide)
      have hcw : isWordChar c = true := by
        have hc2 := hc
        unfold keepChar at hc2
        cases hW : isWordChar c with
        | true => rfl
        | false =>
          exfalso
          apply hds
          unfold isDashOrSpace
          rw [hW] at hc2
          simp only [Bool.false_or, Bool.or_eq_true] at hc2
          simp only [Bool.or_eq_true]
          exact hc2.symm
      have eN : ∀ inRun : Bool, collapseRuns inRun (c :: rest) = c :: collapseRuns false rest := by
        intro inRun
        simp [collapseRuns, hds]
      refine ⟨fun inRun => ?_, ?_⟩
      · rw [eN inRun]
        constructor
        · intro x hx
          rcases List.mem_cons.mp hx with hx | hx
          · rw [hx]; exact Or.inr hcw
          · exact (hrest.1 false).1 x hx
        · apply noAdjDash_cons_of _ _ (hrest.1 false).2
          intro b hb h1 _
          exact hcne h1
      · rw [eN true]
        intro b hb
        have : c = b := by simpa using hb
        rw [← this]
        exact hcne

theorem map_lower_chars {l : List Char}
    (h : ∀ c ∈ l, c = '-' ∨ isWordChar c = true) :
    ∀ c ∈ l.map lowerChar, c = '-' ∨ isLowerWord c = true := by
  intro x hx
  rcases List.mem_map.mp hx with ⟨c, hc, rfl⟩
  rcases h c hc with h1 | h1
  · exact Or.inl (lowerChar_dash_iff.mpr h1)
  · exact Or.inr (lowerChar_word h1)

theorem map_lower_noAdj {l : List Char} (h : noAdjDash l = true) :
    noAdjDash (l.map lowerChar) = true := by
  induction l with
  | nil => rfl
  | cons a l ih =>
    cases l with
    | nil => rfl
    | cons b rest =>
      have h1 := noAdjDash_head h
      have h2 := noAdjDash_tail h
      show noAdjDash (lowerChar a :: (b :: rest).map lowerChar) = true
      apply noAdjDash_cons_of _ _ (ih h2)
      intro x hx ha hb
      have hxb : x = lowerChar b := by simpa using hx.symm
      rw [hxb] at hb
      exact h1 ⟨lowerChar_dash_iff.mp ha, lowerChar_dash_iff.mp hb⟩

theorem head_dropWhile_ne (p : Char → Bool) :
    ∀ (l : List Char) (a : Char), (l.dropWhile p).head? = some a → p a = false := by
  intro l
  induction l with
  | nil => intro a h; simp [List.dropWhile] at h
  | cons c rest ih =>
    intro a h
    by_cases hc : p c = true
    · rw [List.dropWhile_cons, if_pos hc] at h
      exact ih a h
    · rw [List.dropWhile_cons, if_neg hc] at h
      have : c = a := by simpa using h
      rw [← this]
      exact Bool.not_eq_true _ ▸ hc

theorem stripTrailing_decomp : ∀ l : List Char, ∃ t, l = stripTrailingDashes l ++ t := by
  intro l
  induction l with
  | nil => exact ⟨[], rfl⟩
  | cons c rest ih =>
    obtain ⟨t, ht⟩ := ih
    unfold stripTrailingDashes
    cases hsr : stripTrailingDashes rest with
    | nil =>
      by_cases hc : (c == '-') = true
      · exact ⟨c :: rest, by simp [hc]⟩
      · refine ⟨rest, ?_⟩
        simp [hc]
    | cons r rs =>
      refine ⟨t, ?_⟩
      rw [hsr] at ht
      simpa using congrArg (c :: ·) ht

theorem stripTrailing_getLast :
    ∀ (l : List Char) (a : Char), (stripTrailingDashes l).getLast? = some a → a ≠ '-' := by
  intro l
  induction l with
  | nil => intro a h; simp [stripTrailingDashes] at h
  | cons c rest ih =>
    intro a h
    unfold stripTrailingDashes at h
    cases hsr : stripTrailingDashes rest with
    | nil =>
      rw [hsr] at h
      by_cases hc : (c == '-') = true
      · simp [hc] at h
      · simp only [hc, if_false, Bool.false_eq_true] at h
        have : c = a := by simpa using h
        rw [← this]
        simpa using hc
    | cons r rs =>
      rw [hsr] at h
      rw [List.getLast?_cons_cons] at h
      exact ih a (by rw [hsr]; exact h)

theorem stripTrailing_head :
    ∀ (l : List Char) (a : Char), (stripTrailingDashes l).head? = some a →
      l.head? = some a := by
  intro l
  induction l with
  | nil => intro a h; simp [stripTrailingDashes] at h
  | cons c rest _ =>
    intro a h
    unfold stripTrailingDashes at h
    cases hsr : stripTrailingDashes rest with
    | nil =>
      rw [hsr] at h
      by_cases hc : (c == '-') = true
      · simp [hc] at h
      · simp only [hc, if_false, Bool.false_eq_true, List.head?_cons] at h
        simpa using h
    | cons r rs =>
      rw [hsr] at h
      simpa using h

theorem matchesGroups_of_inv (P : Char → Bool) :
    ∀ l : List Char,
      (∀ c ∈ l, P c = true ∨ c = '-') → noAdjDash l = true →
      (∀ a, l.getLast? = some a → a ≠ '-') →
      ((∀ a, l.head? = some a → a ≠ '-') → l ≠ [] → matchesGroups P true l = true)
      ∧ matchesGroups P false l = true := by
  intro l
  induction l with
  | nil =>
    intro _ _ _
    exact ⟨fun _ h => absurd rfl h, rfl⟩
  | cons c rest ih =>
    intro hchars hadj hlast
    have hlast' : ∀ a, rest.getLast? = some a → a ≠ '-' := by
      cases rest with
      | nil => intro a ha; simp at ha
      | cons b rs =>
        intro a ha
        apply hlast
        rw [List.getLast?_cons_cons]
        exact ha
    have hrest := ih (fun x hx => hchars x (List.mem_cons_of_mem c hx))
      (noAdjDash_tail hadj) hlast'
    have hcP : P c = true ∨ c = '-' := hchars c (List.mem_cons_self c rest)
    constructor
    · intro hhead _
      have hcd : c ≠ '-' := hhead c rfl
      have hcp : P c = true := hcP.resolve_right hcd
      show matchesGroups P true (c :: rest) = true
      unfold matchesGroups
      rw [if_pos hcp]
      exact hrest.2
    · show matchesGroups P false (c :: rest) = true
      unfold matchesGroups
      by_cases hcp : P c = true
      · rw [if_pos hcp]
        exact hrest.2
      · have hcd : c = '-' := hcP.resolve_left hcp
        rw [if_neg hcp, if_pos (by simp [hcd])]
        apply hrest.1
        · cases rest with
          | nil => intro a ha; simp at ha
          | cons b rs =>
            intro a ha had
            have hab : b = a := by simpa using ha
            exact noAdjDash_head hadj ⟨hcd, by rw [hab]; exact had⟩
        · intro hre
          rw [hre] at hlast
          exact hlast c (by simp) hcd

end ArtViewer

namespace ArtViewer

/-! ## Claim C3: claim theorems -/

/-- Claim C3 counterexample: the input a_b (underscores are word
characters for Python regex) slugifies to itself, which neither matches
the claimed pattern without underscore nor equals the fallback. -/
theorem C3_underscore_counterexample :
    slugWithFallback "a_b" = "a_b"
    ∧ matchesClaimPattern (slugWithFallback "a_b") = false
    ∧ slugWithFallback "a_b" ≠ "artwork" := by
  refine ⟨by decide, by decide, by decide⟩

/-- Claim C3, amended: for every input string of ASCII characters the
slug (with the converter's fallback applied) matches the pattern with
underscore admitted, or is the literal fallback string.  The statement
is restricted to ASCII input, where the embedded character classes
coincide with Python's Unicode-aware `\w`, `\s` and `str.lower`; on
non-ASCII input the program keeps Unicode word characters in the slug,
so the claimed ASCII pattern fails there as well. -/
theorem C3_slug_pattern_amended (s : String)
    (hascii : ∀ c ∈ s.toList, c.toNat ≤ 127) :
    matchesAmendedPattern (slugWithFallback s) = true ∨ slugWithFallback s = "artwork" := by
  by_cases he : slugify s = ""
  · right
    simp [slugWithFallback, he]
  · left
    have hW : slugWithFallback s = slugify s := by simp [slugWithFallback, he]
    rw [hW]
    show matchesGroups isLowerWord true (String.mk (slugifyChars s.toList)).toList = true
    rw [show (String.mk (slugifyChars s.toList)).toList = slugifyChars s.toList from rfl]
    have hkeep : ∀ c ∈ s.toList.filter keepChar, keepChar c = true :=
      fun c hc => (List.mem_filter.mp hc).2
    obtain ⟨hco, _⟩ := collapse_spec (s.toList.filter keepChar) hkeep
    obtain ⟨hchars0, hadj0⟩ := hco false
    have hchars1 := map_lower_chars hchars0
    have hadj1 := map_lower_noAdj hadj0
    have hd_sub : ∀ c ∈ ((collapseRuns false (s.toList.filter keepChar)).map
        lowerChar).dropWhile (fun c => c == '-'), c = '-' ∨ isLowerWord c = true :=
      fun c hc => hchars1 c (List.Sublist.mem hc (List.dropWhile_sublist _))
    have hd_adj : noAdjDash (((collapseRuns false (s.toList.filter keepChar)).map
        lowerChar).dropWhile (fun c => c == '-')) = true := by
      apply noAdjDash_append_right (((collapseRuns false (s.toList.filter keepChar)).map
        lowerChar).takeWhile (fun c => c == '-'))
      rw [List.takeWhile_append_dropWhile]
      exact hadj1
    have hd_head : ∀ a, (((collapseRuns false (s.toList.filter keepChar)).map
        lowerChar).dropWhile (fun c => c == '-')).head? = some a → a ≠ '-' := by
      intro a ha hda
      have hfa := head_dropWhile_ne (fun c => c == '-') _ a ha
      rw [hda] at hfa
      simp at hfa
    obtain ⟨tl, htl⟩ := stripTrailing_decomp (((collapseRuns false
      (s.toList.filter keepChar)).map lowerChar).dropWhile (fun c => c == '-'))
    have hL_chars : ∀ c ∈ slugifyChars s.toList, c = '-' ∨ isLowerWord c = true := by
      intro c hc
      apply hd_sub c
      rw [htl]
      exact List.mem_append_left tl hc
    have hL_adj : noAdjDash (slugifyChars s.toList) = true := by
      apply noAdjDash_append_left _ tl
      have e : slugifyChars s.toList = stripTrailingDashes (((collapseRuns false
          (s.toList.filter keepChar)).map lowerChar).dropWhile (fun c => c == '-')) := rfl
      rw [e, ← htl]
      exact hd_adj
    have hL_head : ∀ a, (slugifyChars s.toList).head? = some a → a ≠ '-' :=
      fun a ha => hd_head a (stripTrailing_head _ a ha)
    have hL_last : ∀ a, (slugifyChars s.toList).getLast? = some a → a ≠ '-' :=
      stripTrailing_getLast _
    have hne : slugifyChars s.toList ≠ [] := by
      intro h0
      apply he
      show String.mk (slugifyChars s.toList) = ""
      rw [h0]
    exact (matchesGroups_of_inv isLowerWord (slugifyChars s.toList)
      (fun c hc => (hL_chars c hc).symm) hL_adj hL_last).1 hL_head hne

end ArtViewer

namespace ArtViewer

/-- Witness for C2 at a concrete successful conversion. -/
theorem C2_no_staging_witness :
    ((convert_to_dzi ⟨false, ⟨true, true, true, true, true⟩, "/app", "/srv/photo.jpg", true⟩
        ⟨⟨[("/srv/photo.jpg", .file (some ⟨1000, 800, none⟩))]⟩, .missing⟩).trace.any
        isCopyEffect = false)
    ∧ ((convert_to_dzi ⟨false, ⟨true, true, true, true, true⟩, "/app", "/srv/photo.jpg", true⟩
        ⟨⟨[("/srv/photo.jpg", .file (some ⟨1000, 800, none⟩))]⟩, .missing⟩).trace.all
        (tileSrcIs "/srv/photo.jpg") = true) :=
  C2_no_staging_amended
    ⟨false, ⟨true, true, true, true, true⟩, "/app", "/srv/photo.jpg", true⟩
    ⟨⟨[("/srv/photo.jpg", .file (some ⟨1000, 800, none⟩))]⟩, .missing⟩

/-- Witness for C3 at a concrete ASCII input. -/
theorem C3_slug_pattern_witness :
    matchesAmendedPattern (slugWithFallback "My Great Painting!") = true
    ∨ slugWithFallback "My Great Painting!" = "artwork" :=
  C3_slug_pattern_amended "My Great Painting!" (by decide)

end ArtViewer
